import Mathlib

/-!
A shallow embedding of the BSN (Burgerservicenummer) validator and generator
from `TestingTools.py` (methods `test_bsnnummer` and `genereer_bsn`), of the
Python string operations they rely on (`str`, `str.zfill`, per-character
`int`), and of the weighted-checksum formula stated in the specification.
The theorems at the end settle the specification's claims about this code.
-/

/-- The character of a decimal digit `d`, as Python's `str` produces it
(ASCII code `48 + d`). -/
def digitChar (d : Nat) : Char := Char.ofNat (48 + d)

/-- Little-endian decimal digits of `n` (empty for `0`), with explicit fuel
so that the recursion is structural.  `pyDigitsLE n n` is always fully
evaluated, since `n` only shrinks under division by 10. -/
def pyDigitsLE (fuel n : Nat) : List Nat :=
  match fuel with
  | 0 => []
  | f + 1 => if n = 0 then [] else n % 10 :: pyDigitsLE f (n / 10)

/-- The decimal numeral of a natural number, as Python's `str` (so `0`
becomes `"0"`). -/
def natToChars (n : Nat) : List Char :=
  if n = 0 then ['0'] else ((pyDigitsLE n n).reverse).map digitChar

/-- Python `str` on an `int`, including the sign character for negatives. -/
def pyStr (i : Int) : List Char :=
  if i < 0 then '-' :: natToChars i.natAbs else natToChars i.toNat

/-- Python `str.zfill`: left-pad with zeros up to `width`, keeping a leading
sign character in front of the inserted zeros; never truncates. -/
def pyZfill (s : List Char) (width : Nat) : List Char :=
  match s with
  | [] => List.replicate width '0'
  | c :: rest =>
    if c = '-' ∨ c = '+' then
      c :: (List.replicate (width - (rest.length + 1)) '0' ++ rest)
    else
      List.replicate (width - (rest.length + 1)) '0' ++ (c :: rest)

/-- Python `int` applied to a one-character string: the digit's value, with
`none` modelling the `ValueError` raised on a non-digit character. -/
def pyCharToInt (c : Char) : Option Int :=
  if c.isDigit then some ((c.toNat : Int) - 48) else none

/-- The body of `TestingTools.test_bsnnummer` after the `str` conversion:
zero-fill to 9 characters, convert characters 0..8 to digits, and test the
weighted total modulo 11.  `none` models a raised exception. -/
def test_bsnnummer_run (s : List Char) : Option Bool := do
  let bsnstring := pyZfill s 9
  let d0 ← pyCharToInt (bsnstring.getD 0 ' ')
  let d1 ← pyCharToInt (bsnstring.getD 1 ' ')
  let d2 ← pyCharToInt (bsnstring.getD 2 ' ')
  let d3 ← pyCharToInt (bsnstring.getD 3 ' ')
  let d4 ← pyCharToInt (bsnstring.getD 4 ' ')
  let d5 ← pyCharToInt (bsnstring.getD 5 ' ')
  let d6 ← pyCharToInt (bsnstring.getD 6 ' ')
  let d7 ← pyCharToInt (bsnstring.getD 7 ' ')
  let d8 ← pyCharToInt (bsnstring.getD 8 ' ')
  let totaal := d0 * 9 + d1 * 8 + d2 * 7 + d3 * 6 + d4 * 5 + d5 * 4
      + d6 * 3 + d7 * 2 + d8 * (-1)
  pure (totaal % 11 == 0)

/-- The method `TestingTools.test_bsnnummer`: `bsnstring = str(bsn).zfill(9)` followed by
the weighted 11-test on its first nine characters. -/
def test_bsnnummer (bsn : Int) : Option Bool :=
  test_bsnnummer_run (pyStr bsn)

/-- Python `int` on a string of decimal digit characters. -/
def digitsToNat (s : List Char) : Nat :=
  s.foldl (fun a c => a * 10 + (c.toNat - 48)) 0

/-- One candidate built by `genereer_bsn`: nine digits drawn from the random
stream `ds` starting at position `c` (modelling nine successive
`random.randint(0, 9)` calls). -/
def genereer_candidate (ds : Nat → Nat) (c : Nat) : List Char :=
  (List.range 9).map fun i => digitChar (ds (c + i))

/-- The method `TestingTools.genereer_bsn`, with the random source made explicit as a
digit stream `ds` (position `c` is the next unread stream element) and with
explicit fuel for the retry loop, which the source leaves unbounded. -/
def genereer_bsn (ds : Nat → Nat) : Nat → Nat → Option (List Char)
  | 0, _ => none
  | fuel + 1, c =>
    let bsn := genereer_candidate ds c
    if test_bsnnummer ((digitsToNat bsn : Nat) : Int) = some true then some bsn
    else genereer_bsn ds fuel (c + 9)

/-- The weighted checksum formula as written in the specification (§4):
`total = 9*d[0] + 8*d[1] + 7*d[2] + 6*d[3] + 5*d[4] + 4*d[5] + 3*d[6]
+ 2*d[7] - 1*d[8]`. -/
def spec_total (d : Nat → Int) : Int :=
  9 * d 0 + 8 * d 1 + 7 * d 2 + 6 * d 3 + 5 * d 4 + 4 * d 5 + 3 * d 6
    + 2 * d 7 - 1 * d 8

/-- Big-endian digit `k` of a natural number read as a 9-digit sequence. -/
def natDigit (n k : Nat) : Nat := n / 10 ^ (8 - k) % 10

/-- Variant of `test_bsnnummer` with the logging side effect made explicit: the log is
threaded as state, each completed call appending one entry
`(valid?, tested value)`; a raised exception (`none`) logs nothing. -/
def test_bsnnummer_log (log : List (Bool × Int)) (bsn : Int) :
    Option Bool × List (Bool × Int) :=
  match test_bsnnummer bsn with
  | some b => (some b, log ++ [(b, bsn)])
  | none => (none, log)

/-! ## Digit-extraction lemmas for the numeral embedding -/

lemma pyDigitsLE_getD (f : Nat) :
    ∀ n i, n ≤ f → (pyDigitsLE f n).getD i 0 = n / 10 ^ i % 10 := by
  induction f with
  | zero =>
    intro n i hn
    interval_cases n
    simp [pyDigitsLE]
  | succ f ih =>
    intro n i hn
    by_cases h0 : n = 0
    · subst h0; simp [pyDigitsLE]
    · have hpos : 0 < n := Nat.pos_of_ne_zero h0
      rw [pyDigitsLE, if_neg h0]
      cases i with
      | zero => simp
      | succ i =>
        have hdiv : n / 10 < n := Nat.div_lt_self hpos (by norm_num)
        have hle : n / 10 ≤ f := by omega
        simp only [List.getD_cons_succ, ih (n / 10) i hle,
          Nat.div_div_eq_div_mul]
        rw [pow_succ]
        ring_nf

lemma pyDigitsLE_length (f : Nat) :
    ∀ n k, n ≤ f → ((pyDigitsLE f n).length ≤ k ↔ n < 10 ^ k) := by
  induction f with
  | zero =>
    intro n k hn
    have hn0 : n = 0 := Nat.le_zero.mp hn
    subst hn0
    have hpow : 0 < 10 ^ k := Nat.pow_pos (by norm_num)
    simp [pyDigitsLE, hpow]
  | succ f ih =>
    intro n k hn
    by_cases h0 : n = 0
    · subst h0
      have hpow : 0 < 10 ^ k := Nat.pow_pos (by norm_num)
      simp [pyDigitsLE, hpow]
    · have hpos : 0 < n := Nat.pos_of_ne_zero h0
      rw [pyDigitsLE, if_neg h0]
      have hdiv : n / 10 < n := Nat.div_lt_self hpos (by norm_num)
      have hle : n / 10 ≤ f := by omega
      cases k with
      | zero =>
        simp only [List.length_cons, pow_zero]
        omega
      | succ k =>
        rw [List.length_cons, Nat.add_le_add_iff_right, ih (n / 10) k hle,
          pow_succ, Nat.div_lt_iff_lt_mul (by norm_num : 0 < 10)]

lemma pyDigitsLE_mem_lt (f : Nat) :
    ∀ n d, d ∈ pyDigitsLE f n → d < 10 := by
  induction f with
  | zero => intro n d h; simp [pyDigitsLE] at h
  | succ f ih =>
    intro n d h
    by_cases h0 : n = 0
    · subst h0; simp [pyDigitsLE] at h
    · rw [pyDigitsLE, if_neg h0] at h
      rcases List.mem_cons.mp h with h | h
      · subst h; exact Nat.mod_lt _ (by norm_num)
      · exact ih _ _ h

lemma digitChar_not_sign (d : Nat) (h : d < 10) :
    ¬(digitChar d = '-' ∨ digitChar d = '+') := by
  interval_cases d <;> decide

lemma pyCharToInt_digitChar (d : Nat) (h : d < 10) :
    pyCharToInt (digitChar d) = some (d : Int) := by
  interval_cases d <;> decide

lemma isDigit_digitChar (d : Nat) (h : d < 10) :
    (digitChar d).isDigit = true := by
  interval_cases d <;> decide

/-! ## Indexing the zero-filled numeral -/

lemma getD_replicate_append (pad k : Nat) (l : List Char) (hk : k < pad) :
    (List.replicate pad '0' ++ l).getD k ' ' = '0' := by
  induction pad generalizing k with
  | zero => omega
  | succ pad ih =>
    rw [List.replicate_succ]
    cases k with
    | zero => rfl
    | succ k => exact ih k (by omega)

lemma getD_rev_map (L : List Nat) (k : Nat) (hk : k < L.length) :
    (L.reverse.map digitChar).getD k ' ' = digitChar (L.getD (L.length - 1 - k) 0) := by
  have hk1 : k < (L.reverse.map digitChar).length := by simpa using hk
  have hk2 : k < L.reverse.length := by simpa using hk
  have hk3 : L.length - 1 - k < L.length := by omega
  rw [List.getD_eq_getElem _ _ hk1, List.getD_eq_getElem _ _ hk3,
    List.getElem_map, List.getElem_reverse]

lemma natToChars_pos (n : Nat) (hn : 0 < n) :
    natToChars n = ((pyDigitsLE n n).reverse).map digitChar := by
  rw [natToChars, if_neg (by omega)]

lemma natToChars_length (n : Nat) (hn : 0 < n) :
    (natToChars n).length = (pyDigitsLE n n).length := by
  rw [natToChars_pos n hn]
  simp

lemma pyZfill_natToChars (n : Nat) :
    pyZfill (natToChars n) 9
      = List.replicate (9 - (natToChars n).length) '0' ++ natToChars n := by
  by_cases h0 : n = 0
  · subst h0; rfl
  · have hpos : 0 < n := Nat.pos_of_ne_zero h0
    have hne : (pyDigitsLE n n).length ≠ 0 := by
      intro h
      have := (pyDigitsLE_length n n 0 le_rfl).mp (by omega)
      simp at this
      omega
    rw [natToChars_pos n hpos]
    cases hrev : ((pyDigitsLE n n).reverse).map digitChar with
    | nil =>
      exfalso
      apply hne
      have : ((pyDigitsLE n n).reverse).length = 0 := by
        rw [← List.length_map _ digitChar, hrev]
        rfl
      simpa using this
    | cons c cs =>
      have hcmem : c ∈ ((pyDigitsLE n n).reverse).map digitChar := by
        rw [hrev]; exact List.mem_cons_self c cs
      obtain ⟨d, hd, hdc⟩ := List.mem_map.mp hcmem
      have hd10 : d < 10 := pyDigitsLE_mem_lt n n d (List.mem_reverse.mp hd)
      have hsign : ¬(c = '-' ∨ c = '+') := by
        rw [← hdc]; exact digitChar_not_sign d hd10
      rw [pyZfill, if_neg hsign]
      simp

lemma getD_zfill_small (n k : Nat) (hn : n < 10 ^ 9) (hk : k < 9) :
    (pyZfill (natToChars n) 9).getD k ' ' = digitChar (n / 10 ^ (8 - k) % 10) := by
  by_cases h0 : n = 0
  · subst h0
    rw [Nat.zero_div, Nat.zero_mod]
    interval_cases k <;> rfl
  · have hpos : 0 < n := Nat.pos_of_ne_zero h0
    have hlen : (natToChars n).length = (pyDigitsLE n n).length :=
      natToChars_length n hpos
    have hle9 : (pyDigitsLE n n).length ≤ 9 :=
      (pyDigitsLE_length n n 9 le_rfl).mpr hn
    have hge1 : 1 ≤ (pyDigitsLE n n).length := by
      by_contra h
      have h0len : (pyDigitsLE n n).length ≤ 0 := by omega
      have := (pyDigitsLE_length n n 0 le_rfl).mp h0len
      simp at this
      omega
    rw [pyZfill_natToChars, hlen]
    by_cases hpad : k < 9 - (pyDigitsLE n n).length
    · rw [getD_replicate_append _ _ _ hpad]
      have hnk : n < 10 ^ (8 - k) := by
        calc n < 10 ^ (pyDigitsLE n n).length :=
              (pyDigitsLE_length n n _ le_rfl).mp le_rfl
          _ ≤ 10 ^ (8 - k) := Nat.pow_le_pow_right (by norm_num) (by omega)
      rw [Nat.div_eq_of_lt hnk]
      rfl
    · have hkpad : 9 - (pyDigitsLE n n).length ≤ k := by omega
      rw [natToChars_pos n hpos, List.getD_append_right _ _ _ _
        (by simpa using hkpad)]
      have hidx : k - (List.replicate (9 - (pyDigitsLE n n).length) '0').length
          < (pyDigitsLE n n).length := by
        simp only [List.length_replicate]
        omega
      rw [List.length_replicate] at hidx ⊢
      rw [getD_rev_map _ _ hidx]
      have harith : (pyDigitsLE n n).length - 1 - (k - (9 - (pyDigitsLE n n).length))
          = 8 - k := by omega
      rw [harith, pyDigitsLE_getD n n (8 - k) le_rfl]

lemma getD_zfill_big (n k : Nat) (h1 : 10 ^ 9 ≤ n) (h2 : n < 10 ^ 10)
    (hk : k < 9) :
    (pyZfill (natToChars n) 9).getD k ' ' = digitChar (n / 10 ^ (9 - k) % 10) := by
  have hpos : 0 < n := by positivity
  have hlen : (natToChars n).length = (pyDigitsLE n n).length :=
    natToChars_length n (by omega)
  have hle10 : (pyDigitsLE n n).length ≤ 10 :=
    (pyDigitsLE_length n n 10 le_rfl).mpr h2
  have hgt9 : ¬((pyDigitsLE n n).length ≤ 9) := by
    intro h
    exact absurd ((pyDigitsLE_length n n 9 le_rfl).mp h) (by omega)
  have hlen10 : (pyDigitsLE n n).length = 10 := by omega
  rw [pyZfill_natToChars, hlen, hlen10]
  have hpad0 : (9 : Nat) - 10 = 0 := by norm_num
  rw [hpad0, List.replicate_zero, List.nil_append]
  rw [natToChars_pos n (by omega), getD_rev_map _ _ (by omega)]
  have harith : (pyDigitsLE n n).length - 1 - k = 9 - k := by omega
  rw [harith, pyDigitsLE_getD n n (9 - k) le_rfl]

/-! ## Evaluating `test_bsnnummer` -/

lemma test_run_eval_of_getD (s : List Char) (d : Nat → Nat)
    (hd : ∀ k, k < 9 → d k < 10)
    (hs : ∀ k, k < 9 → (pyZfill s 9).getD k ' ' = digitChar (d k)) :
    test_bsnnummer_run s
      = some (spec_total (fun k => (d k : Int)) % 11 == 0) := by
  have e0 := hs 0 (by norm_num)
  have e1 := hs 1 (by norm_num)
  have e2 := hs 2 (by norm_num)
  have e3 := hs 3 (by norm_num)
  have e4 := hs 4 (by norm_num)
  have e5 := hs 5 (by norm_num)
  have e6 := hs 6 (by norm_num)
  have e7 := hs 7 (by norm_num)
  have e8 := hs 8 (by norm_num)
  rw [test_bsnnummer_run]
  rw [e0, e1, e2, e3, e4, e5, e6, e7, e8]
  rw [pyCharToInt_digitChar _ (hd 0 (by norm_num)),
    pyCharToInt_digitChar _ (hd 1 (by norm_num)),
    pyCharToInt_digitChar _ (hd 2 (by norm_num)),
    pyCharToInt_digitChar _ (hd 3 (by norm_num)),
    pyCharToInt_digitChar _ (hd 4 (by norm_num)),
    pyCharToInt_digitChar _ (hd 5 (by norm_num)),
    pyCharToInt_digitChar _ (hd 6 (by norm_num)),
    pyCharToInt_digitChar _ (hd 7 (by norm_num)),
    pyCharToInt_digitChar _ (hd 8 (by norm_num))]
  simp only [Option.bind_eq_bind, Option.some_bind, Option.pure_def]
  congr 1
  rw [spec_total]
  ring_nf

lemma pyStr_natCast (n : Nat) : pyStr (n : Int) = natToChars n := by
  rw [pyStr, if_neg (not_lt.mpr (Int.natCast_nonneg n)), Int.toNat_natCast]

lemma test_eval_small (n : Nat) (hn : n < 10 ^ 9) :
    test_bsnnummer (n : Int)
      = some (spec_total (fun k => (natDigit n k : Int)) % 11 == 0) := by
  rw [test_bsnnummer, pyStr_natCast]
  exact test_run_eval_of_getD (natToChars n) (fun k => natDigit n k)
    (fun k _ => Nat.mod_lt _ (by norm_num))
    (fun k hk => getD_zfill_small n k hn hk)

lemma test_eval_big (n : Nat) (h1 : 10 ^ 9 ≤ n) (h2 : n < 10 ^ 10) :
    test_bsnnummer (n : Int)
      = some (spec_total (fun k => ((n / 10 ^ (9 - k) % 10 : Nat) : Int)) % 11
          == 0) := by
  rw [test_bsnnummer, pyStr_natCast]
  exact test_run_eval_of_getD (natToChars n) (fun k => n / 10 ^ (9 - k) % 10)
    (fun k _ => Nat.mod_lt _ (by norm_num))
    (fun k hk => getD_zfill_big n k h1 h2 hk)

lemma test_run_eval_digits (d : Nat → Nat) (hd : ∀ k, k < 9 → d k < 10) :
    test_bsnnummer_run [digitChar (d 0), digitChar (d 1), digitChar (d 2),
        digitChar (d 3), digitChar (d 4), digitChar (d 5), digitChar (d 6),
        digitChar (d 7), digitChar (d 8)]
      = some (spec_total (fun k => (d k : Int)) % 11 == 0) := by
  apply test_run_eval_of_getD _ d hd
  intro k hk
  have hzf : pyZfill [digitChar (d 0), digitChar (d 1), digitChar (d 2),
      digitChar (d 3), digitChar (d 4), digitChar (d 5), digitChar (d 6),
      digitChar (d 7), digitChar (d 8)] 9
      = [digitChar (d 0), digitChar (d 1), digitChar (d 2), digitChar (d 3),
        digitChar (d 4), digitChar (d 5), digitChar (d 6), digitChar (d 7),
        digitChar (d 8)] := by
    rw [pyZfill, if_neg (digitChar_not_sign (d 0) (hd 0 (by norm_num)))]
    simp
  rw [hzf]
  interval_cases k <;> rfl

/-! ## Claims -/

/-- C5: `test_bsnnummer` applied to the digit sequence "123456782" returns
`true`, and applied to the digit sequence "987654321" returns `false`. -/
theorem C5_known_fixtures :
    test_bsnnummer_run ['1', '2', '3', '4', '5', '6', '7', '8', '2'] = some true ∧
    test_bsnnummer_run ['9', '8', '7', '6', '5', '4', '3', '2', '1'] = some false := by
  decide

/-- C6 counterexample: neither of the spec's fixtures "135792468" and
"246813579" validates as `true` (their weighted totals are 179 and 177,
with 179 % 11 = 3 and 177 % 11 = 1). -/
theorem C6_counterexample :
    ¬(test_bsnnummer_run ['1', '3', '5', '7', '9', '2', '4', '6', '8'] = some true) ∧
    ¬(test_bsnnummer_run ['2', '4', '6', '8', '1', '3', '5', '7', '9'] = some true) := by
  decide

/-- C6 amended: `test_bsnnummer` applied to the digit sequence "135792468"
returns `false`, and applied to the digit sequence "246813579" returns
`false` (weighted totals 179 and 177, neither divisible by 11). -/
theorem C6_fixtures_return_false :
    test_bsnnummer_run ['1', '3', '5', '7', '9', '2', '4', '6', '8'] = some false ∧
    test_bsnnummer_run ['2', '4', '6', '8', '1', '3', '5', '7', '9'] = some false := by
  decide

/-- C7: `test_bsnnummer` applied to the all-zero candidate (integer 0, i.e.
the digit sequence "000000000") returns `true`, because its checksum total
is 0, which is congruent to 0 modulo 11. -/
theorem C7_all_zero_valid :
    test_bsnnummer ((0 : Nat) : Int) = some true ∧
    spec_total (fun k => (natDigit 0 k : Int)) = 0 := by
  decide

/-- C10: for every negative integer input, `test_bsnnummer` raises an
exception (modelled as `none`) rather than returning a boolean: the sign
character survives `zfill` and makes the first per-character `int`
conversion fail. -/
theorem C10_negative_raises (i : Int) (h : i < 0) : test_bsnnummer i = none := by
  rw [test_bsnnummer, pyStr, if_pos h, test_bsnnummer_run]
  rw [pyZfill, if_pos (Or.inl rfl)]
  rfl

/-- C10 witness: the concrete negative input `-1` raises. -/
theorem C10_negative_raises_witness : test_bsnnummer (-1) = none :=
  C10_negative_raises (-1) (by norm_num)

/-- C9: `test_bsnnummer` is deterministic and stateless: with the logging
side effect threaded explicitly as state, the boolean result of a call does
not depend on the incoming log state, and a repeated call on the same input
(after the first call's log append) returns the same boolean. -/
theorem C9_deterministic (bsn : Int) (l1 l2 : List (Bool × Int)) :
    (test_bsnnummer_log l1 bsn).1 = (test_bsnnummer_log l2 bsn).1 ∧
    (test_bsnnummer_log (test_bsnnummer_log l1 bsn).2 bsn).1
      = (test_bsnnummer_log l1 bsn).1 := by
  cases h : test_bsnnummer bsn <;> simp [test_bsnnummer_log, h]

/-- C1: for every 9-digit sequence `d[0..8]` — given either as a digit
string or as a non-negative integer whose zero-padded decimal digits are
`d[0..8]` — `test_bsnnummer` returns `true` if and only if
`9*d[0] + 8*d[1] + 7*d[2] + 6*d[3] + 5*d[4] + 4*d[5] + 3*d[6] + 2*d[7]
- 1*d[8]` is congruent to 0 modulo 11. -/
theorem C1_eleven_proef (d : Nat → Nat) (hd : ∀ k, k < 9 → d k < 10)
    (n : Nat) (hn : n < 10 ^ 9) (hdig : ∀ k, k < 9 → natDigit n k = d k) :
    (test_bsnnummer_run [digitChar (d 0), digitChar (d 1), digitChar (d 2),
        digitChar (d 3), digitChar (d 4), digitChar (d 5), digitChar (d 6),
        digitChar (d 7), digitChar (d 8)] = some true
      ↔ spec_total (fun k => (d k : Int)) % 11 = 0) ∧
    (test_bsnnummer (n : Int) = some true
      ↔ spec_total (fun k => (d k : Int)) % 11 = 0) := by
  constructor
  · rw [test_run_eval_digits d hd]
    simp [beq_iff_eq]
  · rw [test_eval_small n hn]
    have hfun : spec_total (fun k => ((natDigit n k : Nat) : Int))
        = spec_total (fun k => (d k : Int)) := by
      simp only [spec_total]
      rw [hdig 0 (by norm_num), hdig 1 (by norm_num), hdig 2 (by norm_num),
        hdig 3 (by norm_num), hdig 4 (by norm_num), hdig 5 (by norm_num),
        hdig 6 (by norm_num), hdig 7 (by norm_num), hdig 8 (by norm_num)]
    rw [hfun]
    simp [beq_iff_eq]

set_option maxRecDepth 100000 in
/-- C1 witness: the valid BSN 123456782 in both input forms. -/
theorem C1_eleven_proef_witness :
    test_bsnnummer_run ['1', '2', '3', '4', '5', '6', '7', '8', '2'] = some true
      ∧ test_bsnnummer ((123456782 : Nat) : Int) = some true :=
  ⟨((C1_eleven_proef (fun k => natDigit 123456782 k) (by decide)
      123456782 (by norm_num) (fun k _ => rfl)).1).mpr (by decide),
    ((C1_eleven_proef (fun k => natDigit 123456782 k) (by decide)
      123456782 (by norm_num) (fun k _ => rfl)).2).mpr (by decide)⟩

/-- C3: a non-negative integer with fewer than 9 digits is treated as the
9-digit sequence obtained by zero-padding its decimal numeral on the left
(its leading padded digit is 0, and the result equals running the validator
body on that padded digit sequence); in particular `test_bsnnummer 12345678`
returns the same boolean as `test_bsnnummer` applied to the digit sequence
"012345678". -/
theorem C3_zero_padding (n : Nat) (hn : n < 10 ^ 8) :
    natDigit n 0 = 0 ∧
    test_bsnnummer (n : Int)
      = test_bsnnummer_run [digitChar (natDigit n 0), digitChar (natDigit n 1),
          digitChar (natDigit n 2), digitChar (natDigit n 3),
          digitChar (natDigit n 4), digitChar (natDigit n 5),
          digitChar (natDigit n 6), digitChar (natDigit n 7),
          digitChar (natDigit n 8)] ∧
    test_bsnnummer ((12345678 : Nat) : Int)
      = test_bsnnummer_run ['0', '1', '2', '3', '4', '5', '6', '7', '8'] := by
  have hn9 : n < 10 ^ 9 := lt_of_lt_of_le hn (by norm_num)
  refine ⟨?_, ?_, ?_⟩
  · rw [natDigit, Nat.div_eq_of_lt (show n < 10 ^ (8 - 0) by norm_num; omega)]
  · exact (test_eval_small n hn9).trans
      (test_run_eval_digits (fun k => natDigit n k)
        (fun k _ => Nat.mod_lt _ (by norm_num))).symm
  · exact (test_eval_small 12345678 (by norm_num)).trans
      (test_run_eval_digits (fun k => natDigit 12345678 k)
        (fun k _ => Nat.mod_lt _ (by norm_num))).symm

/-- C3 witness: the spec's own 8-digit example. -/
theorem C3_zero_padding_witness :
    test_bsnnummer ((12345678 : Nat) : Int)
      = test_bsnnummer_run ['0', '1', '2', '3', '4', '5', '6', '7', '8'] :=
  (C3_zero_padding 12345678 (by norm_num)).2.2

/-- C4: for every syntactically valid 9-digit input, `test_bsnnummer`
raises no exception (it returns a boolean), and it returns `false` — rather
than raising — whenever the weighted checksum is not congruent to 0
modulo 11. -/
theorem C4_no_exception_checksum_false (n : Nat) (hn : n < 10 ^ 9) :
    (test_bsnnummer (n : Int)).isSome = true ∧
    (spec_total (fun k => (natDigit n k : Int)) % 11 ≠ 0 →
      test_bsnnummer (n : Int) = some false) := by
  rw [test_eval_small n hn]
  refine ⟨rfl, fun hne => ?_⟩
  simp only [Option.some.injEq]
  exact beq_eq_false_iff_ne.mpr hne

/-- C4 witness: 987654321 is checksum-failing; the call returns `false`
without raising. -/
theorem C4_no_exception_checksum_false_witness :
    (test_bsnnummer ((987654321 : Nat) : Int)).isSome = true ∧
      test_bsnnummer ((987654321 : Nat) : Int) = some false :=
  ⟨(C4_no_exception_checksum_false 987654321 (by norm_num)).1,
    (C4_no_exception_checksum_false 987654321 (by norm_num)).2 (by decide)⟩

/-- C8: a 10-digit non-negative integer is neither truncated by `zfill` nor
rejected: the validator indexes only the first nine characters of the
10-character numeral, silently discarding the last digit, so the result
equals the validator applied to the number formed by the first nine
digits (`n / 10`). -/
theorem C8_ten_digit_uses_first_nine (n : Nat) (h1 : 10 ^ 9 ≤ n)
    (h2 : n < 10 ^ 10) :
    test_bsnnummer (n : Int) = test_bsnnummer ((n / 10 : Nat) : Int) := by
  have h2' : n < 10000000000 := by norm_num at h2; exact h2
  have hq : n / 10 < 10 ^ 9 := by
    rw [Nat.div_lt_iff_lt_mul (by norm_num : 0 < 10)]
    norm_num
    omega
  rw [test_eval_big n h1 h2, test_eval_small (n / 10) hq]
  have e0 : n / 10 ^ (9 - 0) % 10 = natDigit (n / 10) 0 := by
    rw [natDigit, Nat.div_div_eq_div_mul]; norm_num
  have e1 : n / 10 ^ (9 - 1) % 10 = natDigit (n / 10) 1 := by
    rw [natDigit, Nat.div_div_eq_div_mul]; norm_num
  have e2 : n / 10 ^ (9 - 2) % 10 = natDigit (n / 10) 2 := by
    rw [natDigit, Nat.div_div_eq_div_mul]; norm_num
  have e3 : n / 10 ^ (9 - 3) % 10 = natDigit (n / 10) 3 := by
    rw [natDigit, Nat.div_div_eq_div_mul]; norm_num
  have e4 : n / 10 ^ (9 - 4) % 10 = natDigit (n / 10) 4 := by
    rw [natDigit, Nat.div_div_eq_div_mul]; norm_num
  have e5 : n / 10 ^ (9 - 5) % 10 = natDigit (n / 10) 5 := by
    rw [natDigit, Nat.div_div_eq_div_mul]; norm_num
  have e6 : n / 10 ^ (9 - 6) % 10 = natDigit (n / 10) 6 := by
    rw [natDigit, Nat.div_div_eq_div_mul]; norm_num
  have e7 : n / 10 ^ (9 - 7) % 10 = natDigit (n / 10) 7 := by
    rw [natDigit, Nat.div_div_eq_div_mul]; norm_num
  have e8 : n / 10 ^ (9 - 8) % 10 = natDigit (n / 10) 8 := by
    rw [natDigit, Nat.div_div_eq_div_mul]; norm_num
  have hfun : spec_total (fun k => ((n / 10 ^ (9 - k) % 10 : Nat) : Int))
      = spec_total (fun k => ((natDigit (n / 10) k : Nat) : Int)) := by
    simp only [spec_total]
    rw [e0, e1, e2, e3, e4, e5, e6, e7, e8]
  rw [hfun]

/-- C8 witness: the smallest 10-digit number. -/
theorem C8_ten_digit_uses_first_nine_witness :
    test_bsnnummer ((1000000000 : Nat) : Int)
      = test_bsnnummer ((1000000000 / 10 : Nat) : Int) :=
  C8_ten_digit_uses_first_nine 1000000000 (by norm_num) (by norm_num)

/-- C2: every value returned by `genereer_bsn` (for any random digit stream
whose draws are in 0..9, any fuel and any stream position) is a string of
exactly 9 decimal digit characters, and `test_bsnnummer` applied to it (as
the code does, via `int`) returns `true`. -/
theorem C2_generated_is_valid (ds : Nat → Nat) (hds : ∀ i, ds i ≤ 9) :
    ∀ fuel c s, genereer_bsn ds fuel c = some s →
      s.length = 9 ∧ s.all Char.isDigit = true ∧
        test_bsnnummer ((digitsToNat s : Nat) : Int) = some true := by
  intro fuel
  induction fuel with
  | zero => intro c s h; simp [genereer_bsn] at h
  | succ fuel ih =>
    intro c s h
    simp only [genereer_bsn] at h
    by_cases hc : test_bsnnummer ((digitsToNat (genereer_candidate ds c)
        : Nat) : Int) = some true
    · rw [if_pos hc] at h
      obtain rfl : genereer_candidate ds c = s := Option.some.inj h
      refine ⟨by simp [genereer_candidate], ?_, hc⟩
      simp only [genereer_candidate, List.all_eq_true, List.mem_map,
        List.mem_range]
      rintro x ⟨i, hi, rfl⟩
      have := hds (c + i)
      exact isDigit_digitChar _ (by omega)
    · rw [if_neg hc] at h
      exact ih (c + 9) s h

/-- C2 witness: the all-zero stream immediately yields "000000000", which
validates. -/
theorem C2_generated_is_valid_witness :
    (List.replicate 9 '0').length = 9 ∧
      (List.replicate 9 '0').all Char.isDigit = true ∧
      test_bsnnummer ((digitsToNat (List.replicate 9 '0') : Nat) : Int)
        = some true :=
  C2_generated_is_valid (fun _ => 0) (fun _ => Nat.zero_le 9) 1 0
    (List.replicate 9 '0') (by decide)
